import Mathlib

/-!
Verification development for the calista rule-algebra core.

The definitions below are a shallow embedding of the Python sources:
  - `calista/core/_conditions.py` (condition tree, combinator operators,
    `get_conditions_as_func_check`),
  - `calista/core/_aggregate_conditions.py` (aggregate catalogue),
  - `calista/group.py` (`GroupedTable._evaluate_aggregates`, `analyze_rules`),
  - `calista/table.py` (`CalistaTable._evaluate_condition`),
  - `calista/core/engine.py` (`_camel_to_snake`, `LazyEngine.__getitem__`),
  - `calista/engines/pandas_.py` and `calista/engines/polars_.py`
    (`execute_conditions`).

Python `Any`-typed scalar values are embedded as `Int`; comparison operators
are embedded as the operator strings the source carries around.
-/

namespace Calista

/-- The six aggregate function kinds (the classes `Sum`, `Count`, `Mean`,
`Min`, `Max`, `Median` of `_aggregate_conditions.py`). -/
inductive AggKind where
  | sum
  | count
  | mean
  | min
  | max
  | median
deriving DecidableEq, Repr

/-- The Python class name of an aggregate descriptor class
(`self.__class__.__name__` for `Sum`, `Count`, ...). -/
def AggKind.className : AggKind → String
  | .sum => "Sum"
  | .count => "Count"
  | .mean => "Mean"
  | .min => "Min"
  | .max => "Max"
  | .median => "Median"

/-- `func_agg.__class__.__name__.lower()` as computed in
`GroupedTable._evaluate_aggregates`. -/
def AggKind.lowerName : AggKind → String
  | .sum => "sum"
  | .count => "count"
  | .mean => "mean"
  | .min => "min"
  | .max => "max"
  | .median => "median"

/-- An aggregate descriptor: one of the classes `Sum(col_name=...)`,
`Count(col_name=...)`, ... returned by `get_func_agg`. -/
structure AggFunc where
  kind : AggKind
  colName : String
deriving DecidableEq, Repr

/-- `AggregateCondition.agg_col_name`: the computed field
`f"{self.__class__.__name__}_{self.col_name}"`. -/
def AggFunc.aggColName (f : AggFunc) : String :=
  f.kind.className ++ "_" ++ f.colName

/-- The condition tree of `_conditions.py` / `_aggregate_conditions.py`.
Combinator nodes carry the `is_aggregate` field they were constructed with
(`NotCondition` is never constructed with one, so it carries none); leaf
classes keep their Python fields. -/
inductive Cond where
  | andC (isAggregate : Bool) (left right : Cond)
  | orC (isAggregate : Bool) (left right : Cond)
  | notC (cond : Cond)
  | isNull (colName : String)
  | isNotNull (colName : String)
  | isIn (colName : String) (listOfValues : List Int)
  | compareYearToValue (colName : String) (operator : String) (value : Int)
  | isIban (colName : String)
  | isIpAddress (colName : String)
  | isFloat (colName : String)
  | isDate (colName : String)
  | isPhoneNumber (colName : String) (filterPerCountry : Option (List String))
  | isBoolean (colName : String)
  | isEmail (colName : String)
  | isInteger (colName : String)
  | isUnique (colName : String)
  | compareColumnToValue (colName : String) (operator : String) (value : Int)
  | compareColumnToColumn (colLeft : String) (operator : String) (colRight : String)
  | countDecimalDigit (colName : String) (operator : String) (digit : Int)
  | countIntegerDigit (colName : String) (operator : String) (digit : Int)
  | isBetween (colName : String) (minValue : Int) (maxValue : Int)
  | compareLength (colName : String) (operator : String) (length : Int)
  | isAlphabetic (colName : String)
  | isPositive (colName : String)
  | isNegative (colName : String)
  | sumBy (colName : String) (value : Int) (operator : String)
  | countBy (colName : String) (value : Int) (operator : String)
  | meanBy (colName : String) (value : Int) (operator : String)
  | minBy (colName : String) (value : Int) (operator : String)
  | maxBy (colName : String) (value : Int) (operator : String)
  | medianBy (colName : String) (value : Int) (operator : String)
deriving DecidableEq, Repr

namespace Cond

/-- The `is_aggregate` attribute: `False` by default on `Condition`,
`True` on every `AggregateCondition` subclass, the stored constructor
argument on `AndCondition`/`OrCondition`, and the default `False` on
`NotCondition` (the source never passes it there). -/
def isAggregate : Cond → Bool
  | .andC b _ _ => b
  | .orC b _ _ => b
  | .sumBy .. => true
  | .countBy .. => true
  | .meanBy .. => true
  | .minBy .. => true
  | .maxBy .. => true
  | .medianBy .. => true
  | _ => false

/-- `self.__class__.__name__` of a condition node. -/
def className : Cond → String
  | .andC .. => "AndCondition"
  | .orC .. => "OrCondition"
  | .notC _ => "NotCondition"
  | .isNull _ => "IsNull"
  | .isNotNull _ => "IsNotNull"
  | .isIn .. => "IsIn"
  | .compareYearToValue .. => "CompareYearToValue"
  | .isIban _ => "IsIban"
  | .isIpAddress _ => "IsIpAddress"
  | .isFloat _ => "IsFloat"
  | .isDate _ => "IsDate"
  | .isPhoneNumber .. => "IsPhoneNumber"
  | .isBoolean _ => "IsBoolean"
  | .isEmail _ => "IsEmail"
  | .isInteger _ => "IsInteger"
  | .isUnique _ => "IsUnique"
  | .compareColumnToValue .. => "CompareColumnToValue"
  | .compareColumnToColumn .. => "CompareColumnToColumn"
  | .countDecimalDigit .. => "CountDecimalDigit"
  | .countIntegerDigit .. => "CountIntegerDigit"
  | .isBetween .. => "IsBetween"
  | .compareLength .. => "CompareLength"
  | .isAlphabetic _ => "IsAlphabetic"
  | .isPositive _ => "IsPositive"
  | .isNegative _ => "IsNegative"
  | .sumBy .. => "SumBy"
  | .countBy .. => "CountBy"
  | .meanBy .. => "MeanBy"
  | .minBy .. => "MinBy"
  | .maxBy .. => "MaxBy"
  | .medianBy .. => "MedianBy"

end Cond

/-- A Python value handed to `__and__`/`__or__`: either a `Condition`
instance or some other object (the `isinstance(other, Condition)` check
fails on the latter). -/
inductive PyOperand where
  | condVal (c : Cond)
  | other (repr : String)
deriving DecidableEq, Repr

/-- The two error shapes raised by the combinator operators: the
`"Cannot combine Condition with AggregateCondition"` exception and the
`"type of ... is not a Condition"` exception. -/
inductive CombineError where
  | mixedConditionKind
  | notACondition
deriving DecidableEq, Repr

/-- `Condition.__and__`: with a `Condition` operand of equal
`is_aggregate`, returns `AndCondition(is_aggregate=self.is_aggregate,
left=other, right=self)`; with unequal flags raises the
mixed-kind exception; with a non-`Condition` operand raises the
not-a-Condition exception. -/
def condAnd (self : Cond) (other : PyOperand) : Except CombineError Cond :=
  match other with
  | .condVal o =>
    if self.isAggregate = o.isAggregate then
      .ok (.andC self.isAggregate o self)
    else
      .error .mixedConditionKind
  | .other _ => .error .notACondition

/-- `Condition.__or__`: same discipline as `__and__`, building
`OrCondition(is_aggregate=self.is_aggregate, left=other, right=self)`. -/
def condOr (self : Cond) (other : PyOperand) : Except CombineError Cond :=
  match other with
  | .condVal o =>
    if self.isAggregate = o.isAggregate then
      .ok (.orC self.isAggregate o self)
    else
      .error .mixedConditionKind
  | .other _ => .error .notACondition

/-- `Condition.__invert__`: always returns `NotCondition(cond=self)`
(the `isinstance(self, Condition)` guard is vacuously true on a bound
method). -/
def condInvert (self : Cond) : Cond :=
  .notC self

namespace Cond

/-- `get_func_agg`, defined on the six `*By` classes only; any other node
lacks the method (an `AttributeError` in Python, `none` here). -/
def getFuncAgg : Cond → Option AggFunc
  | .sumBy col _ _ => some ⟨.sum, col⟩
  | .countBy col _ _ => some ⟨.count, col⟩
  | .meanBy col _ _ => some ⟨.mean, col⟩
  | .minBy col _ _ => some ⟨.min, col⟩
  | .maxBy col _ _ => some ⟨.max, col⟩
  | .medianBy col _ _ => some ⟨.median, col⟩
  | _ => none

/-- `get_func_check`, defined on the six `*By` classes only: builds
`CompareColumnToValue(col_name=self.get_func_agg().agg_col_name,
operator=self.operator, value=self.value)`. -/
def getFuncCheck : Cond → Option Cond
  | .sumBy col v op =>
    some (.compareColumnToValue (AggFunc.aggColName ⟨.sum, col⟩) op v)
  | .countBy col v op =>
    some (.compareColumnToValue (AggFunc.aggColName ⟨.count, col⟩) op v)
  | .meanBy col v op =>
    some (.compareColumnToValue (AggFunc.aggColName ⟨.mean, col⟩) op v)
  | .minBy col v op =>
    some (.compareColumnToValue (AggFunc.aggColName ⟨.min, col⟩) op v)
  | .maxBy col v op =>
    some (.compareColumnToValue (AggFunc.aggColName ⟨.max, col⟩) op v)
  | .medianBy col v op =>
    some (.compareColumnToValue (AggFunc.aggColName ⟨.median, col⟩) op v)
  | _ => none

/-- `Condition.get_conditions_as_func_check`: guarded by `is_aggregate`
(falling through to Python's implicit `None` when the flag is `False`);
rebuilds `AndCondition`/`OrCondition` without passing `is_aggregate`
(so the rebuilt node gets the default `False`) and calls
`get_func_check` on every other node.  A `None` child or a missing
`get_func_check` raises in Python; both failure modes are `none` here. -/
def getConditionsAsFuncCheck : Cond → Option Cond
  | .andC b l r =>
    if b then
      match l.getConditionsAsFuncCheck, r.getConditionsAsFuncCheck with
      | some l', some r' => some (.andC false l' r')
      | _, _ => none
    else none
  | .orC b l r =>
    if b then
      match l.getConditionsAsFuncCheck, r.getConditionsAsFuncCheck with
      | some l', some r' => some (.orC false l' r')
      | _, _ => none
    else none
  | c => if c.isAggregate then c.getFuncCheck else none

end Cond

/-- The aggregate condition trees produced by the rule-authoring surface:
`And`/`Or` nodes built by `&`/`|` on aggregates (hence carrying
`is_aggregate = True`) over the six `*By` leaves. -/
inductive AggTree : Cond → Prop where
  | and_ {l r : Cond} : AggTree l → AggTree r → AggTree (.andC true l r)
  | or_ {l r : Cond} : AggTree l → AggTree r → AggTree (.orC true l r)
  | sum_ (col : String) (v : Int) (op : String) : AggTree (.sumBy col v op)
  | count_ (col : String) (v : Int) (op : String) : AggTree (.countBy col v op)
  | mean_ (col : String) (v : Int) (op : String) : AggTree (.meanBy col v op)
  | min_ (col : String) (v : Int) (op : String) : AggTree (.minBy col v op)
  | max_ (col : String) (v : Int) (op : String) : AggTree (.maxBy col v op)
  | median_ (col : String) (v : Int) (op : String) : AggTree (.medianBy col v op)

/-- The bare combinator shape of a condition tree (which combinator at each
node and the left/right order of children; leaf contents erased). -/
inductive CShape where
  | andS (l r : CShape)
  | orS (l r : CShape)
  | notS (s : CShape)
  | leafS
deriving DecidableEq, Repr

/-- The shape of a condition tree. -/
def Cond.shape : Cond → CShape
  | .andC _ l r => .andS l.shape r.shape
  | .orC _ l r => .orS l.shape r.shape
  | .notC c => .notS c.shape
  | _ => .leafS

/-- Modelled from the spec wording of §4.4 step 4: recursively rebuild the
`And`/`Or` structure with the same left/right order and replace every
aggregate leaf with its `check_spec()`; other nodes are kept unchanged.
This is the spec-side description that `getConditionsAsFuncCheck` is
compared against. -/
def checkTreeSpec : Cond → Cond
  | .andC _ l r => .andC false (checkTreeSpec l) (checkTreeSpec r)
  | .orC _ l r => .orC false (checkTreeSpec l) (checkTreeSpec r)
  | c =>
    match c.getFuncCheck with
    | some chk => chk
    | none => c

/-- One entry of `agg_cols_expr` in `GroupedTable._evaluate_aggregates`:
the record of the backend call
`getattr(self._aggregate_dataset_utils, func_agg_name)(func_agg,
agg_col_name, self._agg_keys, self._engine)` (the engine argument, an
opaque handle, is not part of the record). -/
structure AggExpr where
  method : String
  funcAgg : AggFunc
  aggColName : String
  keys : List String
deriving DecidableEq, Repr

/-- The body of the non-combinator `case _` of `parse`: skip when the
aggregate column name is already in `seen`, otherwise append the
aggregation expression and record the name. -/
def parseLeafStep (keys : List String) (acc : List AggExpr × List String)
    (f : AggFunc) : List AggExpr × List String :=
  if f.aggColName ∈ acc.2 then acc
  else (acc.1 ++ [⟨f.kind.lowerName, f, f.aggColName, keys⟩],
        acc.2 ++ [f.aggColName])

/-- The nested `parse` closure of `GroupedTable._evaluate_aggregates`,
with the mutable `(agg_cols_expr, seen)` pair threaded explicitly:
`And`/`Or` nodes recurse into both children (left first); any other node
has `get_func_agg` called on it (`none` models the `AttributeError` a
non-aggregate leaf would raise) and is deduplicated by aggregate column
name. -/
def parse (keys : List String) :
    Cond → List AggExpr × List String → Option (List AggExpr × List String)
  | .andC _ l r, acc => (parse keys l acc).bind fun acc1 => parse keys r acc1
  | .orC _ l r, acc => (parse keys l acc).bind fun acc1 => parse keys r acc1
  | c, acc =>
    match c.getFuncAgg with
    | some f => some (parseLeafStep keys acc f)
    | none => none

/-- `GroupedTable._evaluate_aggregates`: run `parse` over every condition
of the list with one shared `(agg_cols_expr, seen)` pair, then call
`engine.aggregate_dataset(self._agg_keys, agg_cols_expr)` — the grouped
dataset is recorded as the pair of grouping keys and aggregation
expressions. -/
def evaluateAggregates (keys : List String) (conditions : List Cond) :
    Option (List String × List AggExpr) :=
  (conditions.foldlM (fun acc c => parse keys c acc) ([], [])).map
    fun acc => (keys, acc.1)

/-- The aggregate leaf descriptors of a tree in pre-order (`And`/`Or`
recurse left then right; other nodes contribute their `get_func_agg`
descriptor when they have one). -/
def Cond.aggLeaves : Cond → List AggFunc
  | .andC _ l r => l.aggLeaves ++ r.aggLeaves
  | .orC _ l r => l.aggLeaves ++ r.aggLeaves
  | c => c.getFuncAgg.toList

/-- First-occurrence deduplication of a list of names against a set of
already-seen names: the reference description of what the shared `seen`
set achieves. -/
def firstDedup : List String → List String → List String
  | [], _ => []
  | n :: ns, seen =>
    if n ∈ seen then firstDedup ns seen
    else n :: firstDedup ns (seen ++ [n])

/-- `GroupedTable.analyze_rules`: keep the rule values that are
`Condition` instances (in this typed embedding, all of them), run
`_evaluate_aggregates` ONCE over that whole batch, install the resulting
grouped dataset as the engine's dataset, then derive every rule's check
tree with `get_conditions_as_func_check` and hand the batch to
`CalistaTable.analyze_rules` for evaluation against that single dataset.
The observable outcome modelled is the materialized grouped dataset
together with the per-rule check trees passed on for evaluation. -/
def groupedAnalyzeRules (keys : List String) (rules : List (String × Cond)) :
    Option ((List String × List AggExpr) × List (String × Option Cond)) :=
  (evaluateAggregates keys (rules.map Prod.snd)).map fun ds =>
    (ds, rules.map fun r => (r.1, r.2.getConditionsAsFuncCheck))

/-- On an aggregate tree, `parse` succeeds and equals the fold of the
per-leaf dedup step over the tree's pre-order aggregate leaves. -/
lemma parse_aggTree (keys : List String) {c : Cond} (h : AggTree c) :
    ∀ acc, parse keys c acc = some (c.aggLeaves.foldl (parseLeafStep keys) acc) := by
  induction h with
  | and_ hl hr ihl ihr =>
    intro acc
    simp [parse, ihl, ihr, Cond.aggLeaves, List.foldl_append]
  | or_ hl hr ihl ihr =>
    intro acc
    simp [parse, ihl, ihr, Cond.aggLeaves, List.foldl_append]
  | sum_ col v op => intro acc; rfl
  | count_ col v op => intro acc; rfl
  | mean_ col v op => intro acc; rfl
  | min_ col v op => intro acc; rfl
  | max_ col v op => intro acc; rfl
  | median_ col v op => intro acc; rfl

/-- The `seen` component of the dedup fold grows by exactly the
first-occurrence dedup of the incoming names. -/
lemma foldl_parseLeafStep_snd (keys : List String) :
    ∀ (fs : List AggFunc) (acc : List AggExpr × List String),
      (fs.foldl (parseLeafStep keys) acc).2 =
        acc.2 ++ firstDedup (fs.map AggFunc.aggColName) acc.2 := by
  intro fs
  induction fs with
  | nil => intro acc; simp [firstDedup]
  | cons f fs ih =>
    intro acc
    by_cases hmem : f.aggColName ∈ acc.2
    · simp [parseLeafStep, hmem, firstDedup, ih]
    · simp [parseLeafStep, hmem, firstDedup, ih]

/-- The expressions and the `seen` names stay in lock-step: the names of
the accumulated expressions are exactly the `seen` list. -/
lemma foldl_parseLeafStep_fst (keys : List String) :
    ∀ (fs : List AggFunc) (acc : List AggExpr × List String),
      acc.1.map AggExpr.aggColName = acc.2 →
      ((fs.foldl (parseLeafStep keys) acc).1).map AggExpr.aggColName =
        (fs.foldl (parseLeafStep keys) acc).2 := by
  intro fs
  induction fs with
  | nil => intro acc h; exact h
  | cons f fs ih =>
    intro acc h
    rw [List.foldl_cons]
    apply ih
    by_cases hmem : f.aggColName ∈ acc.2
    · simpa [parseLeafStep, hmem] using h
    · simp [parseLeafStep, hmem, h]

/-- Every expression appended by the dedup fold records its descriptor's
own column name, method name and the grouping keys. -/
lemma foldl_parseLeafStep_wellFormed (keys : List String) :
    ∀ (fs : List AggFunc) (acc : List AggExpr × List String),
      (∀ e ∈ acc.1, e.aggColName = e.funcAgg.aggColName ∧
        e.method = e.funcAgg.kind.lowerName ∧ e.keys = keys) →
      ∀ e ∈ (fs.foldl (parseLeafStep keys) acc).1,
        e.aggColName = e.funcAgg.aggColName ∧
        e.method = e.funcAgg.kind.lowerName ∧ e.keys = keys := by
  intro fs
  induction fs with
  | nil => intro acc h; exact h
  | cons f fs ih =>
    intro acc h
    rw [List.foldl_cons]
    apply ih
    intro e he
    by_cases hmem : f.aggColName ∈ acc.2
    · exact h e (by simpa [parseLeafStep, hmem] using he)
    · simp [parseLeafStep, hmem] at he
      rcases he with he | rfl
      · exact h e he
      · exact ⟨rfl, rfl, rfl⟩

/-- `firstDedup` produces pairwise-distinct names, none of them already
seen. -/
lemma firstDedup_nodup :
    ∀ (ns seen : List String),
      (firstDedup ns seen).Nodup ∧ ∀ x ∈ firstDedup ns seen, x ∉ seen := by
  intro ns
  induction ns with
  | nil => intro seen; simp [firstDedup]
  | cons n ns ih =>
    intro seen
    by_cases hmem : n ∈ seen
    · simpa [firstDedup, hmem] using ih seen
    · have h2 := ih (seen ++ [n])
      simp only [firstDedup, hmem, if_false]
      refine ⟨List.nodup_cons.mpr ⟨fun hx => (h2.2 n hx) (by simp), h2.1⟩, ?_⟩
      intro x hx
      rcases List.mem_cons.mp hx with rfl | hx'
      · exact hmem
      · exact fun hxseen => (h2.2 x hx') (by simp [hxseen])

end Calista

namespace Calista

/-- `col_name` attribute of a node, when the class declares one
(combinators and `CompareColumnToColumn` do not). -/
def Cond.colNameAttr : Cond → Option String
  | .isNull col => some col
  | .isNotNull col => some col
  | .isIn col _ => some col
  | .compareYearToValue col _ _ => some col
  | .isIban col => some col
  | .isIpAddress col => some col
  | .isFloat col => some col
  | .isDate col => some col
  | .isPhoneNumber col _ => some col
  | .isBoolean col => some col
  | .isEmail col => some col
  | .isInteger col => some col
  | .isUnique col => some col
  | .compareColumnToValue col _ _ => some col
  | .countDecimalDigit col _ _ => some col
  | .countIntegerDigit col _ _ => some col
  | .isBetween col _ _ => some col
  | .compareLength col _ _ => some col
  | .isAlphabetic col => some col
  | .isPositive col => some col
  | .isNegative col => some col
  | .sumBy col _ _ => some col
  | .countBy col _ _ => some col
  | .meanBy col _ _ => some col
  | .minBy col _ _ => some col
  | .maxBy col _ _ => some col
  | .medianBy col _ _ => some col
  | _ => none

/-- The back-end capability surface consumed by
`CalistaTable._evaluate_condition`: the three combinator methods every
`LazyEngine` implements, plus the per-leaf methods reached through
`engine[condition]` (`none` models a missing method, i.e. an
`AttributeError`). -/
structure Backend (α : Type) where
  andCondition : α → α → α
  orCondition : α → α → α
  notCondition : α → α
  leafMethod : Cond → Option α

/-- `CalistaTable._evaluate_condition`: `And`/`Or` nodes evaluate the left
child, then the right child, then apply the engine's combinator method;
`Not` evaluates its child and applies `not_condition`;
`CompareColumnToColumn` checks both its columns against the schema and
dispatches itself; every other node checks its `col_name` against the
schema and dispatches itself.  `none` models any raised exception
(column not found in the schema, or missing engine method). -/
def evaluateCondition {α : Type} (B : Backend α) (schema : List String) :
    Cond → Option α
  | .andC _ l r =>
    match evaluateCondition B schema l, evaluateCondition B schema r with
    | some vl, some vr => some (B.andCondition vl vr)
    | _, _ => none
  | .orC _ l r =>
    match evaluateCondition B schema l, evaluateCondition B schema r with
    | some vl, some vr => some (B.orCondition vl vr)
    | _, _ => none
  | .notC c =>
    match evaluateCondition B schema c with
    | some v => some (B.notCondition v)
    | none => none
  | .compareColumnToColumn cl op cr =>
    if cl ∈ schema ∧ cr ∈ schema then
      B.leafMethod (.compareColumnToColumn cl op cr)
    else none
  | c =>
    match c.colNameAttr with
    | some col => if col ∈ schema then B.leafMethod c else none
    | none => none

/-- A free boolean-expression backend that records exactly which calls
were made with which argument order; used to observe the evaluator. -/
inductive BExpr where
  | leaf (colName : String)
  | band (l r : BExpr)
  | bor (l r : BExpr)
  | bnot (e : BExpr)
deriving DecidableEq, Repr

/-- The free backend: combinators build the corresponding `BExpr` node
and every leaf with a `col_name` is supported. -/
def freeBackend : Backend BExpr where
  andCondition := .band
  orCondition := .bor
  notCondition := .bnot
  leafMethod c := c.colNameAttr.map .leaf

/-- `_camel_to_snake`'s list comprehension:
`["_" + c.lower() if c.isupper() else c for c in condition_name]`,
joined. -/
def camelToSnakeChars : List Char → List Char
  | [] => []
  | c :: cs => (if c.isUpper then ['_', c.toLower] else [c]) ++ camelToSnakeChars cs

/-- Python's `str.lstrip("_")`: drop every leading underscore. -/
def lstripUnderscores : List Char → List Char
  | '_' :: cs => lstripUnderscores cs
  | cs => cs

/-- `_camel_to_snake` of `core/engine.py`. -/
def camelToSnake (s : String) : String :=
  ⟨lstripUnderscores (camelToSnakeChars s.data)⟩

/-- An engine as seen by `LazyEngine.__getitem__`: its class name and the
attribute names it defines. -/
structure EngineAttrs where
  engineClassName : String
  attrs : List String
deriving DecidableEq, Repr

/-- CPython's `AttributeError` message for a failed
`object.__getattribute__`. -/
def attributeErrorMsg (clsName attr : String) : String :=
  "'" ++ clsName ++ "' object has no attribute '" ++ attr ++ "'"

/-- `LazyEngine.__getitem__(condition)`: derive the method name as
`_camel_to_snake(condition.__class__.__name__)` and look it up with
`__getattribute__`; a missing attribute raises `AttributeError` with the
message above. -/
def engineGetItem (e : EngineAttrs) (c : Cond) : Except String String :=
  let attr := camelToSnake c.className
  if attr ∈ e.attrs then .ok attr
  else .error (attributeErrorMsg e.engineClassName attr)

/-- Round-half-to-even to the nearest integer (the rounding of Python's
built-in `round`), idealized over exact rationals. -/
def roundHalfEven (q : ℚ) : ℤ :=
  if q - ⌊q⌋ < 1 / 2 then ⌊q⌋
  else if 1 / 2 < q - ⌊q⌋ then ⌊q⌋ + 1
  else if ⌊q⌋ % 2 = 0 then ⌊q⌋ else ⌊q⌋ + 1

/-- Python's `round(x, 2)`, idealized over exact rationals. -/
def pythonRound2 (q : ℚ) : ℚ :=
  (roundHalfEven (q * 100) : ℚ) / 100

/-- The `Metrics` record of `core/metrics.py`, with the percentage held as
`Option ℚ`: `none` models a non-finite float (the NaN that numpy's
zero-total division produces).  The timestamp is outside the model. -/
structure MetricsRec where
  rule : String
  totalRowCount : ℕ
  validRowCount : ℕ
  validRowCountPct : Option ℚ
deriving DecidableEq, Repr

/-- `Pandas_Engine.execute_conditions` (engines/pandas_.py), given the
dataset's row count and each rule's valid-row count: the percentage is
`round((valid_count / total_count) * 100, 2)`; with `total_count = 0` the
numpy division yields a non-finite float (`none`), not an exception. -/
def pandasExecuteConditions (totalCount : ℕ)
    (validCounts : List (String × ℕ)) : List MetricsRec :=
  validCounts.map fun rc =>
    { rule := rc.1
      totalRowCount := totalCount
      validRowCount := rc.2
      validRowCountPct :=
        if totalCount = 0 then none
        else some (pythonRound2 ((rc.2 : ℚ) / (totalCount : ℚ) * 100)) }

/-- `Polars_Engine.execute_conditions` (engines/polars_.py): the
percentage is `(valid_count * 100) / total_count`, NOT rounded; with
`total_count = 0` the integer division raises `ZeroDivisionError`
(modelled as `Except.error`). -/
def polarsExecuteConditions (totalCount : ℕ)
    (validCounts : List (String × ℕ)) : Except Unit (List MetricsRec) :=
  validCounts.mapM fun rc =>
    if totalCount = 0 then .error ()
    else .ok
      { rule := rc.1
        totalRowCount := totalCount
        validRowCount := rc.2
        validRowCountPct := some ((rc.2 : ℚ) * 100 / (totalCount : ℚ)) }

/-- C1: `a & b` / `a | b` on two conditions with equal `is_aggregate`
construct a new `AndCondition` / `OrCondition` carrying the shared flag;
with differing flags both raise the `MixedConditionKind` exception; with a
non-`Condition` right operand both raise the `NotACondition` exception.
All outcomes are decided by the constructor-operators themselves, before
any evaluation. -/
theorem combinators_flag_discipline (a b : Cond) (x : String) :
    (a.isAggregate = b.isAggregate →
      condAnd a (.condVal b) = .ok (.andC a.isAggregate b a) ∧
      condOr a (.condVal b) = .ok (.orC a.isAggregate b a)) ∧
    (a.isAggregate ≠ b.isAggregate →
      condAnd a (.condVal b) = .error .mixedConditionKind ∧
      condOr a (.condVal b) = .error .mixedConditionKind) ∧
    condAnd a (.other x) = .error .notACondition ∧
    condOr a (.other x) = .error .notACondition := by
  refine ⟨fun h => ?_, fun h => ?_, rfl, rfl⟩
  · simp [condAnd, condOr, h]
  · simp [condAnd, condOr, h]

/-- Witness for C1: a concrete instantiation exercising both the
equal-flag and the differing-flag hypotheses. -/
theorem combinators_flag_discipline_witness :
    (condAnd (.isNull "ID") (.condVal (.isEmail "MAIL")) =
      .ok (.andC false (.isEmail "MAIL") (.isNull "ID")) ∧
      condOr (.isNull "ID") (.condVal (.isEmail "MAIL")) =
        .ok (.orC false (.isEmail "MAIL") (.isNull "ID"))) ∧
    (condAnd (.sumBy "X" 10 ">") (.condVal (.isNull "ID")) =
      .error .mixedConditionKind ∧
      condOr (.sumBy "X" 10 ">") (.condVal (.isNull "ID")) =
        .error .mixedConditionKind) ∧
    condAnd (.isNull "ID") (.other "5") = .error .notACondition := by
  refine ⟨?_, ?_, ?_⟩
  · exact (combinators_flag_discipline (.isNull "ID") (.isEmail "MAIL") "5").1 (by decide)
  · exact (combinators_flag_discipline (.sumBy "X" 10 ">") (.isNull "ID") "5").2.1 (by decide)
  · exact (combinators_flag_discipline (.isNull "ID") (.isEmail "MAIL") "5").2.2.1

/-- C10: `~c` always succeeds, returning `NotCondition(cond=c)` whose own
`is_aggregate` is `False` (the child's flag is not propagated), so
`(~c) & d` and `(~c) | d` are accepted exactly when `d.is_aggregate` is
`False`, whatever `c` is. -/
theorem invert_always_nonaggregate (c d : Cond) :
    condInvert c = .notC c ∧
    (condInvert c).isAggregate = false ∧
    ((∃ e, condAnd (condInvert c) (.condVal d) = .ok e) ↔ d.isAggregate = false) ∧
    ((∃ e, condOr (condInvert c) (.condVal d) = .ok e) ↔ d.isAggregate = false) := by
  have hnot : (Cond.notC c).isAggregate = false := rfl
  refine ⟨rfl, rfl, ?_, ?_⟩ <;>
  · cases hda : d.isAggregate
    · simp [condAnd, condOr, condInvert, hnot, hda]
    · simp [condAnd, condOr, condInvert, hnot, hda]

/-- Witness for C10: negating an aggregate condition succeeds, carries
`is_aggregate = False`, and combines with a non-aggregate condition. -/
theorem invert_always_nonaggregate_witness :
    condInvert (.sumBy "X" 10 ">") = .notC (.sumBy "X" 10 ">") ∧
    (condInvert (.sumBy "X" 10 ">")).isAggregate = false ∧
    (∃ e, condAnd (condInvert (.sumBy "X" 10 ">")) (.condVal (.isNull "ID")) = .ok e) := by
  obtain ⟨h1, h2, h3, -⟩ :=
    invert_always_nonaggregate (.sumBy "X" 10 ">") (.isNull "ID")
  exact ⟨h1, h2, h3.mpr (by decide)⟩

/-- C2 counterexample: a `SumBy` over column `SALARY` derives the aggregate
column name `Sum_SALARY` (the class name of the descriptor, capitalized as
written), not the upper-cased `SUM_SALARY` the claim states. -/
theorem agg_col_name_not_uppercased :
    (Cond.sumBy "SALARY" 10 ">").getFuncAgg = some ⟨.sum, "SALARY"⟩ ∧
    (AggFunc.mk .sum "SALARY").aggColName = "Sum_SALARY" ∧
    (AggFunc.mk .sum "SALARY").aggColName ≠ "SUM_SALARY" := by
  refine ⟨rfl, by decide, by decide⟩

/-- C2 amended: the aggregate column name derived via `get_func_agg` /
`agg_col_name` is the descriptor's class name (capitalized as written:
`Sum`, `Count`, `Mean`, `Min`, `Max`, `Median`) followed by an underscore
and the target column; the derivation is a pure function of the function
kind and column (the comparison operator and value do not influence it). -/
theorem agg_col_name_derivation (col : String) (v v' : Int) (op op' : String) :
    ((Cond.sumBy col v op).getFuncAgg).map AggFunc.aggColName =
      some ("Sum_" ++ col) ∧
    ((Cond.countBy col v op).getFuncAgg).map AggFunc.aggColName =
      some ("Count_" ++ col) ∧
    ((Cond.meanBy col v op).getFuncAgg).map AggFunc.aggColName =
      some ("Mean_" ++ col) ∧
    ((Cond.minBy col v op).getFuncAgg).map AggFunc.aggColName =
      some ("Min_" ++ col) ∧
    ((Cond.maxBy col v op).getFuncAgg).map AggFunc.aggColName =
      some ("Max_" ++ col) ∧
    ((Cond.medianBy col v op).getFuncAgg).map AggFunc.aggColName =
      some ("Median_" ++ col) ∧
    (Cond.sumBy col v op).getFuncAgg = (Cond.sumBy col v' op').getFuncAgg := by
  refine ⟨?_, ?_, ?_, ?_, ?_, ?_, rfl⟩
  · exact congrArg (fun s => some (s ++ col)) (by decide : "Sum" ++ "_" = "Sum_")
  · exact congrArg (fun s => some (s ++ col)) (by decide : "Count" ++ "_" = "Count_")
  · exact congrArg (fun s => some (s ++ col)) (by decide : "Mean" ++ "_" = "Mean_")
  · exact congrArg (fun s => some (s ++ col)) (by decide : "Min" ++ "_" = "Min_")
  · exact congrArg (fun s => some (s ++ col)) (by decide : "Max" ++ "_" = "Max_")
  · exact congrArg (fun s => some (s ++ col)) (by decide : "Median" ++ "_" = "Median_")

/-- Witness for C2 amended: `SumBy` over `SALARY` yields `Sum_SALARY`. -/
theorem agg_col_name_derivation_witness :
    ((Cond.sumBy "SALARY" 10 ">").getFuncAgg).map AggFunc.aggColName =
      some ("Sum_" ++ "SALARY") :=
  (agg_col_name_derivation "SALARY" 10 10 ">" ">").1

/-- C6: on every aggregate condition tree, `get_conditions_as_func_check`
succeeds and is structure-preserving: the output equals the spec-side
rebuild `checkTreeSpec` (same `And`/`Or` nesting and child order, every
aggregate leaf replaced by its `get_func_check`, a `CompareColumnToValue`
over the generated aggregate column name with the leaf's operator and
value), and its combinator shape equals the input's shape. -/
theorem get_conditions_as_func_check_structure (c : Cond) (h : AggTree c) :
    c.getConditionsAsFuncCheck = some (checkTreeSpec c) ∧
    (checkTreeSpec c).shape = c.shape := by
  induction h with
  | and_ hl hr ihl ihr =>
    refine ⟨?_, ?_⟩
    · simp [Cond.getConditionsAsFuncCheck, ihl.1, ihr.1, checkTreeSpec]
    · simp [checkTreeSpec, Cond.shape, ihl.2, ihr.2]
  | or_ hl hr ihl ihr =>
    refine ⟨?_, ?_⟩
    · simp [Cond.getConditionsAsFuncCheck, ihl.1, ihr.1, checkTreeSpec]
    · simp [checkTreeSpec, Cond.shape, ihl.2, ihr.2]
  | sum_ col v op => exact ⟨rfl, rfl⟩
  | count_ col v op => exact ⟨rfl, rfl⟩
  | mean_ col v op => exact ⟨rfl, rfl⟩
  | min_ col v op => exact ⟨rfl, rfl⟩
  | max_ col v op => exact ⟨rfl, rfl⟩
  | median_ col v op => exact ⟨rfl, rfl⟩

/-- Witness for C6: a concrete aggregate tree `(SumBy ∧ CountBy)` rewrites
to the `And` of the two point-wise checks, preserving shape. -/
theorem get_conditions_as_func_check_structure_witness :
    (Cond.andC true (.sumBy "X" 10 ">") (.countBy "Y" 3 "<")).getConditionsAsFuncCheck =
      some (checkTreeSpec (Cond.andC true (.sumBy "X" 10 ">") (.countBy "Y" 3 "<"))) ∧
    (checkTreeSpec (Cond.andC true (.sumBy "X" 10 ">") (.countBy "Y" 3 "<"))).shape =
      (Cond.andC true (.sumBy "X" 10 ">") (.countBy "Y" 3 "<")).shape :=
  get_conditions_as_func_check_structure _
    (.and_ (.sum_ "X" 10 ">") (.count_ "Y" 3 "<"))

/-- C7 counterexample: on the non-combinator, non-aggregate node
`IsNull("ID")`, `get_conditions_as_func_check` does not return the node
unchanged — the guarding `if self.is_aggregate` falls through and the
method returns Python's implicit `None`. -/
theorem non_aggregate_leaf_check_not_identity :
    (Cond.isNull "ID").getConditionsAsFuncCheck ≠ some (.isNull "ID") ∧
    (Cond.isNull "ID").getConditionsAsFuncCheck = none := by
  exact ⟨by decide, rfl⟩

/-- C7 amended: for every condition whose `is_aggregate` flag is `False`
(non-combinator leaves in particular, but also `Not` nodes and combinators
built from non-aggregates), `get_conditions_as_func_check` returns `None`
rather than the node itself. -/
theorem non_aggregate_check_returns_none (c : Cond) (h : c.isAggregate = false) :
    c.getConditionsAsFuncCheck = none := by
  cases c <;> simp_all [Cond.getConditionsAsFuncCheck, Cond.isAggregate]

/-- Witness for C7 amended: a non-aggregate leaf maps to `None`. -/
theorem non_aggregate_check_returns_none_witness :
    (Cond.compareLength "NAME" "<" 10).getConditionsAsFuncCheck = none :=
  non_aggregate_check_returns_none (.compareLength "NAME" "<" 10) (by decide)

/-- Splitting a character list at the first underscore is unambiguous when
the prefixes are underscore-free. -/
lemma underscore_split :
    ∀ (p a q b : List Char), '_' ∉ p → '_' ∉ q →
      p ++ '_' :: a = q ++ '_' :: b → p = q ∧ a = b := by
  intro p
  induction p with
  | nil =>
    intro a q b _ hq h
    cases q with
    | nil => simpa using h
    | cons c q' =>
      simp only [List.nil_append, List.cons_append, List.cons.injEq] at h
      obtain ⟨h1, -⟩ := h
      subst h1
      exact absurd (List.mem_cons_self _ _) hq
  | cons c p' ih =>
    intro a q b hp hq h
    cases q with
    | nil =>
      simp only [List.cons_append, List.nil_append, List.cons.injEq] at h
      obtain ⟨h1, -⟩ := h
      subst h1
      exact absurd (List.mem_cons_self _ _) hp
    | cons d q' =>
      simp only [List.cons_append, List.cons.injEq] at h
      obtain ⟨rfl, h2⟩ := h
      have hp' : '_' ∉ p' := fun hx => hp (List.mem_cons_of_mem _ hx)
      have hq' : '_' ∉ q' := fun hx => hq (List.mem_cons_of_mem _ hx)
      obtain ⟨he, ha⟩ := ih a q' b hp' hq' h2
      exact ⟨by rw [he], ha⟩

/-- None of the six aggregate class names contains an underscore. -/
lemma className_no_underscore (k : AggKind) : '_' ∉ k.className.data := by
  cases k <;> decide

/-- The six aggregate class names are pairwise distinct (as character
lists). -/
lemma className_data_injective (k1 k2 : AggKind)
    (h : k1.className.data = k2.className.data) : k1 = k2 := by
  cases k1 <;> cases k2 <;> first | rfl | exact absurd h (by decide)

/-- The aggregate column name determines the (function kind, source
column) pair: `agg_col_name` is collision-free, so deduplicating by name
is the same as deduplicating by pair. -/
lemma aggColName_injective (f g : AggFunc)
    (h : f.aggColName = g.aggColName) : f = g := by
  have hd := congrArg String.data h
  simp only [AggFunc.aggColName, String.data_append] at hd
  have hd' : f.kind.className.data ++ '_' :: f.colName.data =
      g.kind.className.data ++ '_' :: g.colName.data := by
    simpa [List.append_assoc] using hd
  obtain ⟨h1, h2⟩ := underscore_split _ _ _ _
    (className_no_underscore f.kind) (className_no_underscore g.kind) hd'
  obtain ⟨k1, c1⟩ := f
  obtain ⟨k2, c2⟩ := g
  simp only [AggFunc.mk.injEq]
  exact ⟨className_data_injective k1 k2 h1, String.ext h2⟩

/-- C3: over any batch of aggregate condition trees, the rewriter's
traversal succeeds and produces exactly one aggregation expression per
distinct aggregate column name — equivalently (by collision-freedom of
`agg_col_name`) per distinct (function kind, source column) pair — in
first-occurrence order of the pre-order traversal of the batch, no matter
how many trees or branches mention a pair. -/
theorem evaluate_aggregates_dedup (keys : List String) (cs : List Cond)
    (h : ∀ c ∈ cs, AggTree c) :
    ∃ es, evaluateAggregates keys cs = some (keys, es) ∧
      es.map AggExpr.aggColName =
        firstDedup ((cs.flatMap Cond.aggLeaves).map AggFunc.aggColName) [] ∧
      (es.map AggExpr.aggColName).Nodup ∧
      (es.map AggExpr.funcAgg).Nodup ∧
      (∀ e ∈ es, e.aggColName = e.funcAgg.aggColName ∧
        e.method = e.funcAgg.kind.lowerName ∧ e.keys = keys) ∧
      (∀ f g : AggFunc, f.aggColName = g.aggColName ↔ f = g) := by
  have hgen : ∀ (cs' : List Cond) (acc : List AggExpr × List String),
      (∀ c ∈ cs', AggTree c) →
      cs'.foldlM (fun acc c => parse keys c acc) acc =
        some ((cs'.flatMap Cond.aggLeaves).foldl (parseLeafStep keys) acc) := by
    intro cs'
    induction cs' with
    | nil => intro acc _; rfl
    | cons c rest ih =>
      intro acc hcs
      have hc := hcs c (List.mem_cons_self _ _)
      have hrest : ∀ c' ∈ rest, AggTree c' :=
        fun c' hc' => hcs c' (List.mem_cons_of_mem _ hc')
      simp [List.foldlM_cons, parse_aggTree keys hc, ih _ hrest,
        List.foldl_append]
  have hfold := hgen cs ([], []) h
  refine ⟨((cs.flatMap Cond.aggLeaves).foldl (parseLeafStep keys) ([], [])).1,
    ?_, ?_, ?_, ?_, ?_, ?_⟩
  · unfold evaluateAggregates
    rw [hfold]
    rfl
  · rw [foldl_parseLeafStep_fst keys _ ([], []) rfl,
      foldl_parseLeafStep_snd keys _ ([], [])]
    simp
  · rw [foldl_parseLeafStep_fst keys _ ([], []) rfl,
      foldl_parseLeafStep_snd keys _ ([], [])]
    simpa using (firstDedup_nodup _ _).1
  · have hwf := foldl_parseLeafStep_wellFormed keys (cs.flatMap Cond.aggLeaves)
      ([], []) (by simp)
    have hmap : ((cs.flatMap Cond.aggLeaves).foldl (parseLeafStep keys)
        ([], [])).1.map AggExpr.aggColName =
        (((cs.flatMap Cond.aggLeaves).foldl (parseLeafStep keys)
          ([], [])).1.map AggExpr.funcAgg).map AggFunc.aggColName := by
      rw [List.map_map]
      exact List.map_congr_left fun e he => (hwf e he).1
    have hnodup : (((cs.flatMap Cond.aggLeaves).foldl (parseLeafStep keys)
        ([], [])).1.map AggExpr.aggColName).Nodup := by
      rw [foldl_parseLeafStep_fst keys _ ([], []) rfl,
        foldl_parseLeafStep_snd keys _ ([], [])]
      simpa using (firstDedup_nodup _ _).1
    rw [hmap] at hnodup
    exact hnodup.of_map _
  · exact foldl_parseLeafStep_wellFormed keys (cs.flatMap Cond.aggLeaves)
      ([], []) (by simp)
  · exact fun f g => ⟨aggColName_injective f g, fun hfg => by rw [hfg]⟩

/-- Witness for C3: two `AggregateCondition`s both requiring SUM of column
`X` (sum > 10 and sum < 100), combined in either order, yield exactly one
aggregation expression, named `Sum_X`. -/
theorem evaluate_aggregates_dedup_witness :
    (∃ es, evaluateAggregates ["TEAM"]
        [Cond.andC true (.sumBy "X" 10 ">") (.sumBy "X" 100 "<")] =
        some (["TEAM"], es) ∧ es.map AggExpr.aggColName = ["Sum_X"]) ∧
    (∃ es, evaluateAggregates ["TEAM"]
        [Cond.andC true (.sumBy "X" 100 "<") (.sumBy "X" 10 ">")] =
        some (["TEAM"], es) ∧ es.map AggExpr.aggColName = ["Sum_X"]) := by
  constructor
  · obtain ⟨es, h1, h2, -⟩ := evaluate_aggregates_dedup ["TEAM"]
      [Cond.andC true (.sumBy "X" 10 ">") (.sumBy "X" 100 "<")]
      (by
        intro c hc
        rw [List.mem_singleton] at hc
        subst hc
        exact .and_ (.sum_ "X" 10 ">") (.sum_ "X" 100 "<"))
    exact ⟨es, h1, by rw [h2]; decide⟩
  · obtain ⟨es, h1, h2, -⟩ := evaluate_aggregates_dedup ["TEAM"]
      [Cond.andC true (.sumBy "X" 100 "<") (.sumBy "X" 10 ">")]
      (by
        intro c hc
        rw [List.mem_singleton] at hc
        subst hc
        exact .and_ (.sum_ "X" 100 "<") (.sum_ "X" 10 ">"))
    exact ⟨es, h1, by rw [h2]; decide⟩

/-- C4: `GroupedTable.analyze_rules` runs the aggregate rewrite exactly
once over the whole batch of rule conditions with one shared seen-set:
the single materialized grouped dataset carries one aggregation
expression per aggregate column name that occurs anywhere in the batch
(first-occurrence order across all rules), and each rule's check-tree is
derived afterwards and passed on for evaluation against that single
dataset. -/
theorem analyze_rules_batchwide_dedup (keys : List String)
    (rules : List (String × Cond)) (h : ∀ r ∈ rules, AggTree r.2) :
    ∃ es, groupedAnalyzeRules keys rules =
      some ((keys, es), rules.map fun r => (r.1, some (checkTreeSpec r.2))) ∧
      es.map AggExpr.aggColName =
        firstDedup (((rules.map Prod.snd).flatMap Cond.aggLeaves).map
          AggFunc.aggColName) [] ∧
      (es.map AggExpr.aggColName).Nodup := by
  obtain ⟨es, h1, h2, h3, -⟩ := evaluate_aggregates_dedup keys
    (rules.map Prod.snd) (by
      intro c hc
      obtain ⟨r, hr, rfl⟩ := List.mem_map.mp hc
      exact h r hr)
  refine ⟨es, ?_, h2, h3⟩
  have hcheck : (rules.map fun r => (r.1, r.2.getConditionsAsFuncCheck)) =
      rules.map fun r => (r.1, some (checkTreeSpec r.2)) :=
    List.map_congr_left fun r hr => by
      rw [(get_conditions_as_func_check_structure r.2 (h r hr)).1]
  unfold groupedAnalyzeRules
  rw [h1]
  exact congrArg some (congrArg _ hcheck)

/-- Witness for C4: two rules both requiring SUM of column `X` analyzed in
one batch produce a single grouped dataset holding exactly one `Sum_X`
aggregation expression, and both rules' check-trees. -/
theorem analyze_rules_batchwide_dedup_witness :
    ∃ es, groupedAnalyzeRules ["TEAM"]
        [("r1", Cond.sumBy "X" 10 ">"), ("r2", Cond.sumBy "X" 100 "<")] =
      some ((["TEAM"], es),
        [("r1", some (checkTreeSpec (Cond.sumBy "X" 10 ">"))),
         ("r2", some (checkTreeSpec (Cond.sumBy "X" 100 "<")))]) ∧
      es.map AggExpr.aggColName = ["Sum_X"] := by
  obtain ⟨es, h1, h2, -⟩ := analyze_rules_batchwide_dedup ["TEAM"]
    [("r1", Cond.sumBy "X" 10 ">"), ("r2", Cond.sumBy "X" 100 "<")]
    (by
      intro r hr
      simp only [List.mem_cons, List.not_mem_nil, or_false] at hr
      rcases hr with rfl | rfl
      · exact .sum_ "X" 10 ">"
      · exact .sum_ "X" 100 "<")
  exact ⟨es, h1, by rw [h2]; decide⟩

/-- C5 counterexample: `a & b` stores `left=other, right=self`, so for the
free backend (whose `and_condition` records argument order),
`evaluate(a & b)` is `and_condition(evaluate(b), evaluate(a))` — not
`and_condition(evaluate(a), evaluate(b))` as the claim states. -/
theorem and_evaluation_operand_order_counterexample :
    condAnd (.isNull "A") (.condVal (.isNull "B")) =
      .ok (.andC false (.isNull "B") (.isNull "A")) ∧
    evaluateCondition freeBackend ["A", "B"]
      (.andC false (.isNull "B") (.isNull "A")) =
      some (.band (.leaf "B") (.leaf "A")) ∧
    evaluateCondition freeBackend ["A", "B"] (.isNull "A") =
      some (.leaf "A") ∧
    evaluateCondition freeBackend ["A", "B"] (.isNull "B") =
      some (.leaf "B") ∧
    evaluateCondition freeBackend ["A", "B"]
        (.andC false (.isNull "B") (.isNull "A")) ≠
      some (freeBackend.andCondition (.leaf "A") (.leaf "B")) := by
  refine ⟨rfl, rfl, rfl, rfl, by decide⟩

/-- C5 amended: the evaluator maps `And(l, r)` to
`backend.and_condition(evaluate(l), evaluate(r))`, `Or` analogously and
`Not(c)` to `backend.not_condition(evaluate(c))`; and since `a & b`
constructs `AndCondition(left=b, right=a)`, the combined condition
evaluates to the backend's own AND/OR of the separately evaluated
operands — applied in swapped order: `evaluate(a & b) =
backend.and_condition(evaluate(b), evaluate(a))` (equal to the claim's
orientation whenever the backend's AND/OR are commutative). -/
theorem evaluator_combinator_semantics {α : Type} (B : Backend α)
    (schema : List String) (g : Bool) (a b c : Cond) (va vb vc : α)
    (ha : evaluateCondition B schema a = some va)
    (hb : evaluateCondition B schema b = some vb)
    (hc : evaluateCondition B schema c = some vc) :
    evaluateCondition B schema (.andC g a b) = some (B.andCondition va vb) ∧
    evaluateCondition B schema (.orC g a b) = some (B.orCondition va vb) ∧
    evaluateCondition B schema (.notC c) = some (B.notCondition vc) ∧
    (a.isAggregate = b.isAggregate →
      condAnd a (.condVal b) = .ok (.andC a.isAggregate b a) ∧
      condOr a (.condVal b) = .ok (.orC a.isAggregate b a) ∧
      evaluateCondition B schema (.andC a.isAggregate b a) =
        some (B.andCondition vb va) ∧
      evaluateCondition B schema (.orC a.isAggregate b a) =
        some (B.orCondition vb va)) := by
  refine ⟨?_, ?_, ?_, fun hflag => ⟨?_, ?_, ?_, ?_⟩⟩
  · simp [evaluateCondition, ha, hb]
  · simp [evaluateCondition, ha, hb]
  · simp [evaluateCondition, hc]
  · simp [condAnd, hflag]
  · simp [condOr, hflag]
  · simp [evaluateCondition, ha, hb]
  · simp [evaluateCondition, ha, hb]

/-- Witness for C5 amended: concrete non-aggregate leaves over the free
backend. -/
theorem evaluator_combinator_semantics_witness :
    evaluateCondition freeBackend ["A", "B", "C"]
      (.andC false (.isNull "A") (.isEmail "B")) =
      some (freeBackend.andCondition (.leaf "A") (.leaf "B")) ∧
    condAnd (.isNull "A") (.condVal (.isEmail "B")) =
      .ok (.andC false (.isEmail "B") (.isNull "A")) ∧
    evaluateCondition freeBackend ["A", "B", "C"]
      (.andC false (.isEmail "B") (.isNull "A")) =
      some (freeBackend.andCondition (.leaf "B") (.leaf "A")) := by
  obtain ⟨h1, -, -, h4⟩ := evaluator_combinator_semantics freeBackend
    ["A", "B", "C"] false (.isNull "A") (.isEmail "B") (.isDate "C")
    (.leaf "A") (.leaf "B") (.leaf "C") rfl rfl rfl
  obtain ⟨h5, -, h7, -⟩ := h4 rfl
  exact ⟨h1, h5, h7⟩

/-- C8 counterexample: dispatching `IsNull` on an engine that lacks the
`is_null` method raises an `AttributeError` whose message names the
backend class and the snake_case method name `is_null` — but does not
contain the variant tag `IsNull` itself, contrary to the claim. -/
theorem unsupported_dispatch_message_counterexample :
    engineGetItem ⟨"Pandas_Engine", []⟩ (.isNull "ID") =
      .error (attributeErrorMsg "Pandas_Engine" "is_null") ∧
    ("Pandas_Engine".data <:+:
      (attributeErrorMsg "Pandas_Engine" "is_null").data) ∧
    ("is_null".data <:+:
      (attributeErrorMsg "Pandas_Engine" "is_null").data) ∧
    ¬ ("IsNull".data <:+:
      (attributeErrorMsg "Pandas_Engine" "is_null").data) := by
  refine ⟨rfl, by decide, by decide, by decide⟩

/-- C8 amended: dispatch selects the backend method named by the fixed
CamelCase-to-snake_case mapping of the variant tag (`IsNull ↦ is_null`,
`CompareColumnToValue ↦ compare_column_to_value`); when that method is
absent, lookup fails with an `AttributeError` whose message names the
backend class and the derived snake_case method name (from which the tag
is determined), not the CamelCase tag itself. -/
theorem dispatch_camel_to_snake (e : EngineAttrs) (c : Cond) :
    camelToSnake "IsNull" = "is_null" ∧
    camelToSnake "CompareColumnToValue" = "compare_column_to_value" ∧
    (camelToSnake c.className ∈ e.attrs →
      engineGetItem e c = .ok (camelToSnake c.className)) ∧
    (camelToSnake c.className ∉ e.attrs →
      engineGetItem e c =
        .error (attributeErrorMsg e.engineClassName
          (camelToSnake c.className))) := by
  refine ⟨by decide, by decide, fun hin => ?_, fun hout => ?_⟩
  · simp [engineGetItem, hin]
  · simp [engineGetItem, hout]

/-- Witness for C8 amended: a registered tag dispatches to its snake_case
method; an unregistered one errors with the backend class and method
name. -/
theorem dispatch_camel_to_snake_witness :
    engineGetItem ⟨"Pandas_Engine", ["is_null"]⟩ (.isNull "ID") =
      .ok (camelToSnake (Cond.isNull "ID").className) ∧
    engineGetItem ⟨"Pandas_Engine", ["is_null"]⟩ (.isEmail "MAIL") =
      .error (attributeErrorMsg "Pandas_Engine"
        (camelToSnake (Cond.isEmail "MAIL").className)) := by
  refine ⟨?_, ?_⟩
  · exact (dispatch_camel_to_snake ⟨"Pandas_Engine", ["is_null"]⟩
      (.isNull "ID")).2.2.1 (by decide)
  · exact (dispatch_camel_to_snake ⟨"Pandas_Engine", ["is_null"]⟩
      (.isEmail "MAIL")).2.2.2 (by decide)

/-- C9 counterexample: the polars engine's `execute_conditions` produces,
for a rule with `T = 3`, `V = 1`, the unrounded percentage `100/3` — not
`V/T*100` rounded to 2 decimal digits (`33.33`), so the rounding the
claim states for every evaluated rule does not hold across engines. -/
theorem pct_rounding_not_universal :
    polarsExecuteConditions 3 [("r", 1)] =
      .ok [{ rule := "r", totalRowCount := 3, validRowCount := 1,
             validRowCountPct := some ((100 : ℚ) / 3) }] ∧
    (100 / 3 : ℚ) ≠ pythonRound2 ((1 : ℚ) / 3 * 100) := by
  constructor
  · simp [polarsExecuteConditions, List.mapM.loop]
  · have h : pythonRound2 ((1 : ℚ) / 3 * 100) = 3333 / 100 := by
      unfold pythonRound2
      rw [show ((1 : ℚ) / 3 * 100 * 100) = 10000 / 3 by norm_num]
      have hfloor : ⌊(10000 / 3 : ℚ)⌋ = 3333 := by
        rw [Int.floor_eq_iff]
        constructor <;> norm_num
      unfold roundHalfEven
      rw [hfloor]
      norm_num
    rw [h]
    norm_num

/-- C9 amended: the pandas engine rounds the percentage —
`valid_row_count_pct = round(V/T*100, 2)` (half-to-even) — for `T > 0`,
and with `T = 0` numpy's division yields a non-finite float; the polars
engine returns the exact unrounded `V*100/T` for `T > 0` and raises
`ZeroDivisionError` when `T = 0`.  The zero-total outcome is thus an
incidental, engine-dependent behaviour, and the 2-digit rounding holds in
the pandas engine but not in the polars one. -/
theorem pct_semantics (n : String) (v totalCount : ℕ) :
    (totalCount ≠ 0 →
      pandasExecuteConditions totalCount [(n, v)] =
        [{ rule := n
           totalRowCount := totalCount
           validRowCount := v
           validRowCountPct :=
             some (pythonRound2 ((v : ℚ) / (totalCount : ℚ) * 100)) }] ∧
      polarsExecuteConditions totalCount [(n, v)] =
        .ok [{ rule := n
               totalRowCount := totalCount
               validRowCount := v
               validRowCountPct :=
                 some ((v : ℚ) * 100 / (totalCount : ℚ)) }]) ∧
    (totalCount = 0 →
      pandasExecuteConditions totalCount [(n, v)] =
        [{ rule := n
           totalRowCount := totalCount
           validRowCount := v
           validRowCountPct := none }] ∧
      polarsExecuteConditions totalCount [(n, v)] = .error ()) := by
  constructor
  · intro h0
    constructor
    · simp [pandasExecuteConditions, h0]
    · simp [polarsExecuteConditions, h0, List.mapM.loop]
  · intro h0
    subst h0
    constructor
    · simp [pandasExecuteConditions]
    · simp [polarsExecuteConditions, List.mapM.loop]

/-- Witness for C9 amended: the spec's round-trip example — `T = 4`,
`V = 2` gives a pandas percentage of exactly `50`; `T = 0` gives `none`
for pandas and an error for polars. -/
theorem pct_semantics_witness :
    pandasExecuteConditions 4 [("r", 2)] =
      [{ rule := "r", totalRowCount := 4, validRowCount := 2,
         validRowCountPct := some 50 }] ∧
    pandasExecuteConditions 0 [("r", 0)] =
      [{ rule := "r", totalRowCount := 0, validRowCount := 0,
         validRowCountPct := none }] ∧
    polarsExecuteConditions 0 [("r", 0)] = .error () := by
  obtain ⟨h1, -⟩ := (pct_semantics "r" 2 4).1 (by norm_num)
  obtain ⟨h3, h4⟩ := (pct_semantics "r" 0 0).2 rfl
  refine ⟨?_, h3, h4⟩
  have h50 : pythonRound2 (((2 : ℕ) : ℚ) / ((4 : ℕ) : ℚ) * 100) = 50 := by
    rw [show (((2 : ℕ) : ℚ) / ((4 : ℕ) : ℚ) * 100) = 50 by norm_num]
    unfold pythonRound2
    rw [show ((50 : ℚ) * 100) = 5000 by norm_num]
    have hfloor : ⌊(5000 : ℚ)⌋ = 5000 := by
      rw [Int.floor_eq_iff]
      constructor <;> norm_num
    unfold roundHalfEven
    rw [hfloor]
    norm_num
  rw [h1, h50]

end Calista
